import Mathlib

/-!
Verification of the agent-builder workflow execution core.

This file gives a shallow embedding, in Lean, of the components of the
repository that the checked claims speak about:

* `src/lib/workflow/token-bucket.ts` — the `TokenBucket` rate limiter;
* `src/lib/workflow/token-optimizer.ts` — `optimizePrompt` and friends;
* the rate-limit utilities and the `executeAgentNode` retry loop
  (`rate-limiter.ts` / `agent-executor.ts`, provided unnamed);
* `src/lib/mcp/resolver.ts` — `resolveMCPServers` and `migrateMCPData`;
* `src/lib/database/approvals.ts` — the approval-record operations.

Modelling conventions:

* JavaScript numbers used for token counts and wall-clock times are modelled
  as rationals (`ℚ`) or integers; the code never exercises float rounding in
  the properties below, and every arithmetic comparison appearing in a proof
  is far from a float64 rounding boundary.
* `Date.now()` readings are passed explicitly as arguments (`now`); stateful
  classes become explicit state records with state-passing operations.
* Thrown JS errors become explicit result values (`Except`-style inductives).
-/

namespace AgentBuilder

set_option maxRecDepth 100000

set_option maxHeartbeats 1600000

/-! ## Token bucket (`src/lib/workflow/token-bucket.ts`) -/

/-- State of the `TokenBucket` class: `tokens`, `lastRefill` and the two
constructor parameters `tokensPerSecond`, `maxTokens`. -/
structure TokenBucket where
  tokens : ℚ
  lastRefill : ℚ
  tokensPerSecond : ℚ
  maxTokens : ℚ
deriving DecidableEq

/-- The constructor: `tokens = maxTokens`, `lastRefill = Date.now()`
(the creation time is passed in as `now`). -/
def TokenBucket.new (tokensPerSecond maxTokens now : ℚ) : TokenBucket :=
  { tokens := maxTokens, lastRefill := now,
    tokensPerSecond := tokensPerSecond, maxTokens := maxTokens }

/-- `refillTokens`: `elapsed = (now - lastRefill) / 1000`;
`tokens = min(maxTokens, tokens + elapsed * tokensPerSecond)`; `lastRefill = now`. -/
def TokenBucket.refillTokens (b : TokenBucket) (now : ℚ) : TokenBucket :=
  let elapsed := (now - b.lastRefill) / 1000
  let newTokens := elapsed * b.tokensPerSecond
  { b with tokens := min b.maxTokens (b.tokens + newTokens), lastRefill := now }

/-- `tryConsume`: refill, then consume one token iff `tokens >= 1`. -/
def TokenBucket.tryConsume (b : TokenBucket) (now : ℚ) : Bool × TokenBucket :=
  let b1 := b.refillTokens now
  if b1.tokens ≥ 1 then (true, { b1 with tokens := b1.tokens - 1 })
  else (false, b1)

/-- `getTokenCount`: refill and report the current token count. -/
def TokenBucket.getTokenCount (b : TokenBucket) (now : ℚ) : ℚ × TokenBucket :=
  let b1 := b.refillTokens now
  (b1.tokens, b1)

/-- `getTimeUntilNextToken`: refill; `0` if a token is available, otherwise
`(1 - tokens) / tokensPerSecond * 1000` milliseconds. -/
def TokenBucket.getTimeUntilNextToken (b : TokenBucket) (now : ℚ) : ℚ × TokenBucket :=
  let b1 := b.refillTokens now
  if b1.tokens ≥ 1 then (0, b1)
  else ((1 - b1.tokens) / b1.tokensPerSecond * 1000, b1)

/-- `waitForToken`: the polling loop.  `polls` is the list of successive
`Date.now()` readings at the top of each `while` iteration (the code sleeps
100 ms between polls; the actual spacing is immaterial here).  Each iteration
first checks `now - startTime < timeoutMs`, then attempts `tryConsume`. -/
def TokenBucket.waitForTokenAux (b : TokenBucket) (startTime timeoutMs : ℚ) :
    List ℚ → Bool × TokenBucket
  | [] => (false, b)
  | t :: ts =>
    if t - startTime < timeoutMs then
      match b.tryConsume t with
      | (true, b1) => (true, b1)
      | (false, b1) => b1.waitForTokenAux startTime timeoutMs ts
    else (false, b)

/-- `waitForToken` entry point. -/
def TokenBucket.waitForToken (b : TokenBucket) (startTime timeoutMs : ℚ)
    (polls : List ℚ) : Bool × TokenBucket :=
  b.waitForTokenAux startTime timeoutMs polls

/-- One observable operation on a bucket, tagged with the wall-clock times at
which it touches the bucket. -/
inductive BucketOp where
  | tryConsume (now : ℚ)
  | getTokenCount (now : ℚ)
  | getTimeUntilNextToken (now : ℚ)
  | waitForToken (startTime timeoutMs : ℚ) (polls : List ℚ)

/-- The wall-clock readings an operation performs, in order. -/
def BucketOp.times : BucketOp → List ℚ
  | .tryConsume t => [t]
  | .getTokenCount t => [t]
  | .getTimeUntilNextToken t => [t]
  | .waitForToken _ _ polls => polls

/-- Apply one operation to the bucket state. -/
def TokenBucket.applyOp (b : TokenBucket) : BucketOp → TokenBucket
  | .tryConsume t => (b.tryConsume t).2
  | .getTokenCount t => (b.getTokenCount t).2
  | .getTimeUntilNextToken t => (b.getTimeUntilNextToken t).2
  | .waitForToken s tmo polls => (b.waitForToken s tmo polls).2

/-- Run a sequence of operations. -/
def TokenBucket.runOps (b : TokenBucket) : List BucketOp → TokenBucket
  | [] => b
  | op :: ops => (b.applyOp op).runOps ops

/-- All wall-clock readings of a sequence of operations, in order. -/
def opsTimes (ops : List BucketOp) : List ℚ :=
  ops.flatMap BucketOp.times

/-- `Chrono low ts`: the readings `ts` are non-decreasing and all at or after
`low` (the wall clock never runs backwards past the last refill). -/
def Chrono (low : ℚ) : List ℚ → Prop
  | [] => True
  | t :: ts => low ≤ t ∧ Chrono t ts

/-- The bounds invariant of the bucket state. -/
def TokenBucket.Inv (b : TokenBucket) : Prop :=
  0 ≤ b.tokens ∧ b.tokens ≤ b.maxTokens

theorem chrono_mono {low low2 : ℚ} {ts : List ℚ} (h : Chrono low ts)
    (hle : low2 ≤ low) : Chrono low2 ts := by
  cases ts with
  | nil => trivial
  | cons t ts => exact ⟨le_trans hle h.1, h.2⟩

theorem chrono_append_right {low : ℚ} {a b : List ℚ} (h : Chrono low (a ++ b)) :
    Chrono low b := by
  induction a generalizing low with
  | nil => exact h
  | cons t a ih => exact chrono_mono (ih h.2) h.1

theorem refillTokens_inv {b : TokenBucket} {now : ℚ} (hb : b.Inv)
    (hrate : 0 ≤ b.tokensPerSecond) (hnow : b.lastRefill ≤ now) :
    (b.refillTokens now).Inv ∧ (b.refillTokens now).lastRefill = now ∧
    (b.refillTokens now).tokensPerSecond = b.tokensPerSecond ∧
    (b.refillTokens now).maxTokens = b.maxTokens := by
  obtain ⟨h0, h1⟩ := hb
  refine ⟨⟨?_, ?_⟩, rfl, rfl, rfl⟩
  · have hel : 0 ≤ (now - b.lastRefill) / 1000 * b.tokensPerSecond := by
      apply mul_nonneg
      · apply div_nonneg (by linarith) (by norm_num)
      · exact hrate
    have : (0 : ℚ) ≤ b.tokens + (now - b.lastRefill) / 1000 * b.tokensPerSecond := by
      linarith
    simp only [TokenBucket.refillTokens, le_min_iff]
    exact ⟨le_trans h0 h1, this⟩
  · simp only [TokenBucket.refillTokens]
    exact min_le_left _ _

theorem tryConsume_inv {b : TokenBucket} {now : ℚ} (hb : b.Inv)
    (hrate : 0 ≤ b.tokensPerSecond) (hnow : b.lastRefill ≤ now) :
    (b.tryConsume now).2.Inv ∧ (b.tryConsume now).2.lastRefill = now ∧
    (b.tryConsume now).2.tokensPerSecond = b.tokensPerSecond ∧
    (b.tryConsume now).2.maxTokens = b.maxTokens := by
  obtain ⟨⟨h0, h1⟩, hlr, hr, hm⟩ := refillTokens_inv hb hrate hnow
  unfold TokenBucket.tryConsume
  by_cases hge : (b.refillTokens now).tokens ≥ 1
  · simp only [hge, if_true]
    refine ⟨⟨?_, ?_⟩, hlr, hr, hm⟩
    · show (0 : ℚ) ≤ (b.refillTokens now).tokens - 1
      linarith
    · show (b.refillTokens now).tokens - 1 ≤ (b.refillTokens now).maxTokens
      linarith
  · simp only [hge, if_false]
    exact ⟨⟨h0, h1⟩, hlr, hr, hm⟩

theorem waitForTokenAux_inv {startTime timeoutMs : ℚ} :
    ∀ (polls : List ℚ) (b : TokenBucket) (us : List ℚ), b.Inv →
    0 ≤ b.tokensPerSecond → Chrono b.lastRefill (polls ++ us) →
    (b.waitForTokenAux startTime timeoutMs polls).2.Inv ∧
    Chrono (b.waitForTokenAux startTime timeoutMs polls).2.lastRefill us ∧
    (b.waitForTokenAux startTime timeoutMs polls).2.tokensPerSecond = b.tokensPerSecond ∧
    (b.waitForTokenAux startTime timeoutMs polls).2.maxTokens = b.maxTokens := by
  intro polls
  induction polls with
  | nil =>
    intro b us hb hrate hch
    exact ⟨hb, hch, rfl, rfl⟩
  | cons t ts ih =>
    intro b us hb hrate hch
    obtain ⟨hlt, hch2⟩ := hch
    by_cases htime : t - startTime < timeoutMs
    · obtain ⟨hcInv, hcLr, hcRate, hcMax⟩ := tryConsume_inv hb hrate hlt
      rcases hE : b.tryConsume t with ⟨fl, b1⟩
      rw [hE] at hcInv hcLr hcRate hcMax
      simp only [TokenBucket.waitForTokenAux, htime, if_true, hE]
      cases fl with
      | true =>
        refine ⟨hcInv, ?_, hcRate, hcMax⟩
        rw [hcLr]
        exact chrono_append_right hch2
      | false =>
        have hch3 : Chrono b1.lastRefill (ts ++ us) := by rw [hcLr]; exact hch2
        obtain ⟨r1, r2, r3, r4⟩ := ih b1 us hcInv (by rw [hcRate]; exact hrate) hch3
        exact ⟨r1, r2, by rw [r3, hcRate], by rw [r4, hcMax]⟩
    · simp only [TokenBucket.waitForTokenAux, htime, if_false]
      have hfull : Chrono b.lastRefill ((t :: ts) ++ us) := ⟨hlt, hch2⟩
      exact ⟨hb, chrono_append_right hfull, by simp, by simp⟩

theorem applyOp_inv {b : TokenBucket} {op : BucketOp} {us : List ℚ} (hb : b.Inv)
    (hrate : 0 ≤ b.tokensPerSecond) (hch : Chrono b.lastRefill (op.times ++ us)) :
    (b.applyOp op).Inv ∧ Chrono (b.applyOp op).lastRefill us ∧
    (b.applyOp op).tokensPerSecond = b.tokensPerSecond ∧
    (b.applyOp op).maxTokens = b.maxTokens := by
  cases op with
  | tryConsume t =>
    obtain ⟨hlt, hch2⟩ := hch
    obtain ⟨h1, h2, h3, h4⟩ := tryConsume_inv hb hrate hlt
    simp only [TokenBucket.applyOp]
    exact ⟨h1, by rw [h2]; exact hch2, h3, h4⟩
  | getTokenCount t =>
    obtain ⟨hlt, hch2⟩ := hch
    obtain ⟨h1, h2, h3, h4⟩ := refillTokens_inv hb hrate hlt
    simp only [TokenBucket.applyOp, TokenBucket.getTokenCount]
    exact ⟨h1, by rw [h2]; exact hch2, h3, h4⟩
  | getTimeUntilNextToken t =>
    obtain ⟨hlt, hch2⟩ := hch
    obtain ⟨h1, h2, h3, h4⟩ := refillTokens_inv hb hrate hlt
    have hsnd : (b.getTimeUntilNextToken t).2 = b.refillTokens t := by
      unfold TokenBucket.getTimeUntilNextToken
      by_cases hge : (b.refillTokens t).tokens ≥ 1 <;> simp [hge]
    simp only [TokenBucket.applyOp]
    rw [hsnd]
    exact ⟨h1, by rw [h2]; exact hch2, h3, h4⟩
  | waitForToken s tmo polls =>
    exact waitForTokenAux_inv polls b us hb hrate hch

theorem runOps_inv : ∀ (ops : List BucketOp) (b : TokenBucket), b.Inv →
    0 ≤ b.tokensPerSecond → Chrono b.lastRefill (opsTimes ops) →
    (b.runOps ops).Inv ∧ (b.runOps ops).maxTokens = b.maxTokens := by
  intro ops
  induction ops with
  | nil => intro b hb _ _; exact ⟨hb, rfl⟩
  | cons op ops ih =>
    intro b hb hrate hch
    have hch2 : Chrono b.lastRefill (op.times ++ opsTimes ops) := by
      simpa [opsTimes] using hch
    obtain ⟨h1, h2, h3, h4⟩ := applyOp_inv hb hrate hch2
    obtain ⟨r1, r2⟩ := ih (b.applyOp op) h1 (by rw [h3]; exact hrate) h2
    simp only [TokenBucket.runOps]
    exact ⟨r1, by rw [r2, h4]⟩

/-- Claim C2: `tryConsume()` first lazily refills `currentTokens` to
`min(capacity, currentTokens + elapsedSeconds * refillRatePerSecond)`, then
returns true and deducts exactly one token if the refilled count is at least
one, and otherwise returns false and performs no deduction. -/
theorem tryConsume_contract (b : TokenBucket) (now : ℚ) :
    b.tryConsume now =
      (if 1 ≤ min b.maxTokens (b.tokens + (now - b.lastRefill) / 1000 * b.tokensPerSecond) then
        (true,
          { tokens := min b.maxTokens (b.tokens + (now - b.lastRefill) / 1000 * b.tokensPerSecond) - 1,
            lastRefill := now, tokensPerSecond := b.tokensPerSecond, maxTokens := b.maxTokens })
      else
        (false,
          { tokens := min b.maxTokens (b.tokens + (now - b.lastRefill) / 1000 * b.tokensPerSecond),
            lastRefill := now, tokensPerSecond := b.tokensPerSecond, maxTokens := b.maxTokens })) := by
  simp only [TokenBucket.tryConsume, TokenBucket.refillTokens, ge_iff_le]

/-- Claim C5 counterexample: at truly arbitrary call times the bucket CAN go
negative.  A bucket created at time 10000 ms (with the default constructor
arguments 5 tokens/s, burst 10) and polled at time 0 ms — a wall clock that
has jumped backwards — refills with a negative elapsed time and is left with
-40 tokens. -/
theorem bucket_negative_counterexample :
    (((TokenBucket.new 5 10 10000).tryConsume 0).2).tokens < 0 := by
  norm_num [TokenBucket.new, TokenBucket.tryConsume, TokenBucket.refillTokens]

/-- Claim C5 (amended): for every sequence of bucket operations whose
wall-clock readings are non-decreasing and start no earlier than the creation
time (`Date.now()` never running backwards), and nonnegative constructor
parameters, `currentTokens` stays within `[0, capacity]`. -/
theorem bucket_bounds (tokensPerSecond maxTokens t0 : ℚ) (ops : List BucketOp)
    (hrate : 0 ≤ tokensPerSecond) (hcap : 0 ≤ maxTokens)
    (hch : Chrono t0 (opsTimes ops)) :
    0 ≤ ((TokenBucket.new tokensPerSecond maxTokens t0).runOps ops).tokens ∧
    ((TokenBucket.new tokensPerSecond maxTokens t0).runOps ops).tokens ≤ maxTokens := by
  have hInv : (TokenBucket.new tokensPerSecond maxTokens t0).Inv := ⟨hcap, le_refl _⟩
  obtain ⟨⟨r1, r2⟩, r3⟩ := runOps_inv ops (TokenBucket.new tokensPerSecond maxTokens t0) hInv hrate hch
  exact ⟨r1, by rw [r3] at r2; exact r2⟩

/-- Witness for `bucket_bounds`: a concrete bucket (3 tokens/s, burst 5,
created at time 0) run through a consume, a count, a poll loop and a
time-to-next query at increasing times. -/
theorem bucket_bounds_witness :
    0 ≤ ((TokenBucket.new 3 5 0).runOps
        [.tryConsume 100, .getTokenCount 200, .waitForToken 300 1000 [300, 400],
         .getTimeUntilNextToken 500]).tokens ∧
    ((TokenBucket.new 3 5 0).runOps
        [.tryConsume 100, .getTokenCount 200, .waitForToken 300 1000 [300, 400],
         .getTimeUntilNextToken 500]).tokens ≤ 5 :=
  bucket_bounds 3 5 0 _ (by norm_num) (by norm_num)
    (by simp [opsTimes, BucketOp.times, Chrono]; norm_num)

/-! ## JavaScript string primitives

Helpers mirroring the JS string operations used by the sources: `includes`
(substring containment), `split` on a single character (keeping empty pieces),
`split(/[.!?]+/)` (maximal separator runs), `trim`, `substring`, and
`Array.slice(-n)`.  All inputs in this development are ASCII, where JS UTF-16
lengths and Lean character counts coincide. -/

/-- Does the pattern occur at the head of the haystack? -/
def prefB : List Char → List Char → Bool
  | [], _ => true
  | _ :: _, [] => false
  | p :: ps, h :: hs => p == h && prefB ps hs

/-- Naive substring search: does `pat` occur anywhere in the haystack? -/
def inclSearch (pat : List Char) : List Char → Bool
  | [] => prefB pat []
  | c :: hs => prefB pat (c :: hs) || inclSearch pat hs

/-- JS `s.includes(pat)`. -/
def strIncludes (s pat : String) : Bool :=
  inclSearch pat.data s.data

/-- JS `s.split(sep)` for a single-character separator: splits at every
occurrence, keeping empty pieces. -/
def splitCharSep (sep : Char) : List Char → List Char → List (List Char)
  | cur, [] => [cur.reverse]
  | cur, c :: rest =>
    if c == sep then cur.reverse :: splitCharSep sep [] rest
    else splitCharSep sep (c :: cur) rest

/-- JS `s.split(sep)` on strings. -/
def jsSplitChar (s : String) (sep : Char) : List String :=
  (splitCharSep sep [] s.data).map String.mk

/-- A sentence separator character of the regex `[.!?]`. -/
def isSentenceSep (c : Char) : Bool :=
  c == '.' || c == '!' || c == '?'

/-- JS `s.split(/[.!?]+/)`: a maximal run of separators is one split point.
`cur` is the current piece (reversed), `inSep` records whether the previous
character was a separator. -/
def splitSentencesAux : List Char → Bool → List Char → List (List Char)
  | cur, _, [] => [cur.reverse]
  | cur, inSep, c :: rest =>
    if isSentenceSep c then
      if inSep then splitSentencesAux cur inSep rest
      else cur.reverse :: splitSentencesAux [] true rest
    else splitSentencesAux (c :: cur) false rest

/-- JS `s.split(/[.!?]+/)` on strings. -/
def jsSplitSentences (s : String) : List String :=
  (splitSentencesAux [] false s.data).map String.mk

/-- JS whitespace for `trim` (the ASCII part; all inputs here are ASCII). -/
def isJsSpace (c : Char) : Bool :=
  c == ' ' || c == '\t' || c == '\n' || c == '\r'

/-- JS `s.trim()`. -/
def jsTrim (s : String) : String :=
  String.mk (((s.data.dropWhile isJsSpace).reverse.dropWhile isJsSpace).reverse)

/-- JS `s.substring(0, k)`. -/
def jsTake (s : String) (k : Nat) : String :=
  String.mk (s.data.take k)

/-- JS `s.substring(k)` (for `k` clamped at 0, as `Nat` subtraction provides). -/
def jsDropChars (s : String) (k : Nat) : String :=
  String.mk (s.data.drop k)

/-- JS `Array.slice(-n)`: the last `min(n, length)` elements. -/
def lastN {α : Type} (n : Nat) (l : List α) : List α :=
  l.drop (l.length - n)

/-- JS `Array.join(sep)`. -/
def jsJoin (sep : String) : List String → String
  | [] => ""
  | [x] => x
  | x :: xs => x ++ sep ++ jsJoin sep xs

/-! ## Token optimizer (`src/lib/workflow/token-optimizer.ts`) -/

/-- `estimateTokenCount(text)`: `Math.ceil(text.length / 4)`. -/
def estimateTokenCount (text : String) : Nat :=
  (text.length + 3) / 4

/-- The e-commerce line filter of `optimizeLargeContent`, verbatim from the
source (operator precedence: `&&` binds tighter than `||`). -/
def essentialLineFilter (trimmed : String) : Bool :=
  (decide (trimmed.length > 20) && decide (trimmed.length < 100) &&
    (strIncludes trimmed "Mouse" || strIncludes trimmed "Wireless" ||
     strIncludes trimmed "Bluetooth")) ||
  (strIncludes trimmed "$" && decide (trimmed.length < 50)) ||
  ((strIncludes trimmed "stars" || strIncludes trimmed "rating") &&
    decide (trimmed.length < 50)) ||
  ((strIncludes trimmed "DPI" || strIncludes trimmed "battery" ||
    strIncludes trimmed "rechargeable") && decide (trimmed.length < 100)) ||
  ((strIncludes trimmed "bought" || strIncludes trimmed "customers") &&
    decide (trimmed.length < 50))

/-- The loop body of `optimizeLargeContent`: trim the line, keep it when the
essential-line filter accepts it. -/
def essentialKeep (line : String) : Option String :=
  let trimmed := jsTrim line
  if essentialLineFilter trimmed then some trimmed else none

/-- `optimizeLargeContent(content, maxTokens)`: keep the essential lines when
they exist and fit into `maxTokens * 4` characters; otherwise splice the first
and last `maxChars / 2` characters around a truncation marker. -/
def optimizeLargeContent (content : String) (maxTokens : Nat) : String :=
  let maxChars := maxTokens * 4
  let lines := jsSplitChar content '\n'
  let essentialLines := lines.filterMap essentialKeep
  let fallback :=
    let firstPart := jsTake content (maxChars / 2)
    let lastPart := jsDropChars content (content.length - maxChars / 2)
    firstPart ++ "\n\n... (content truncated) ...\n\n" ++ lastPart
  if 0 < essentialLines.length then
    let optimized := jsJoin "\n" essentialLines
    if optimized.length ≤ maxChars then optimized else fallback
  else fallback

/-- `optimizePrompt(prompt, maxTokens)`.  Notes on JS semantics mirrored here:

* when the sentence list is empty, `sentences[0]` is `undefined`, which
  `Array.join` renders as the empty string — hence the `[""]` branch;
* when the list has fewer than 4 sentences, `sentences.slice(-3)` overlaps
  `sentences[0]`, duplicating it, exactly as in the source;
* `Math.floor((maxTokens / optimized.length) * words.length)` is float64
  arithmetic; it is modelled as the exact rational floor
  `maxTokens * words.length / optimized.length`.  At every input appearing in
  a theorem below the quotient is far from an integer, where the two floors
  agree. -/
def optimizePrompt (prompt : String) (maxTokens : Nat) : String :=
  if prompt.length ≤ maxTokens then prompt
  else if prompt.length > 20000 then optimizeLargeContent prompt maxTokens
  else
    let sentences := (jsSplitSentences prompt).filter fun s => decide (0 < (jsTrim s).length)
    let importantSentences :=
      match sentences with
      | [] => [""]
      | s0 :: _ => s0 :: lastN 3 sentences
    let optimized := jsJoin ". " importantSentences
    if optimized.length > maxTokens then
      let words := jsSplitChar optimized ' '
      let targetWords := maxTokens * words.length / optimized.length
      jsJoin " " (words.take targetWords) ++ "..."
    else optimized

/-! ## Support lemmas for reasoning about the optimizer on large inputs

These let the big (more than 20000 character) inputs of the claims be handled
symbolically: direct kernel evaluation at that size is infeasible, so the
split/join/filter pipeline is rewritten with structural lemmas instead. -/

theorem jsJoin_length (sep : String) : ∀ pieces : List String, pieces ≠ [] →
    (jsJoin sep pieces).length =
      (pieces.map String.length).sum + sep.length * (pieces.length - 1) := by
  intro pieces
  induction pieces with
  | nil => intro h; exact absurd rfl h
  | cons x xs ih =>
    intro _
    cases xs with
    | nil => simp [jsJoin]
    | cons y ys =>
      have hx := ih (by simp)
      show (x ++ sep ++ jsJoin sep (y :: ys)).length = _
      rw [String.length_append, String.length_append, hx]
      simp [List.sum_cons, List.length_cons]
      ring

theorem splitCharSep_no_sep (sep : Char) : ∀ (piece cur : List Char),
    piece.all (fun c => !(c == sep)) = true →
    splitCharSep sep cur piece = [cur.reverse ++ piece] := by
  intro piece
  induction piece with
  | nil => intro cur _; simp [splitCharSep]
  | cons c rest ih =>
    intro cur h
    simp only [List.all_cons, Bool.and_eq_true, Bool.not_eq_true'] at h
    simp only [splitCharSep, h.1, Bool.false_eq_true, if_false]
    rw [ih (c :: cur) (by simpa using h.2)]
    simp

theorem splitCharSep_sep_split (sep : Char) : ∀ (piece cur rest : List Char),
    piece.all (fun c => !(c == sep)) = true →
    splitCharSep sep cur (piece ++ sep :: rest) =
      (cur.reverse ++ piece) :: splitCharSep sep [] rest := by
  intro piece
  induction piece with
  | nil =>
    intro cur rest _
    simp [splitCharSep]
  | cons c piece ih =>
    intro cur rest h
    simp only [List.all_cons, Bool.and_eq_true, Bool.not_eq_true'] at h
    simp only [List.cons_append, splitCharSep, h.1, Bool.false_eq_true, if_false]
    show splitCharSep sep (c :: cur) (piece ++ sep :: rest) = _
    rw [ih (c :: cur) rest (by simpa using h.2)]
    simp

/-- A string containing no occurrence of the separator character. -/
def SepFree (sep : Char) (s : String) : Prop :=
  (s.data.all fun c => !(c == sep)) = true

theorem jsSplitChar_join (sep : Char) : ∀ pieces : List String, pieces ≠ [] →
    (∀ p ∈ pieces, SepFree sep p) →
    jsSplitChar (jsJoin (String.mk [sep]) pieces) sep = pieces := by
  intro pieces
  induction pieces with
  | nil => intro h; exact absurd rfl h
  | cons x xs ih =>
    intro _ hfree
    cases xs with
    | nil =>
      show (splitCharSep sep [] x.data).map String.mk = [x]
      rw [splitCharSep_no_sep sep x.data [] (hfree x (by simp))]
      simp
    | cons y ys =>
      have hys := ih (by simp) (fun p hp => hfree p (List.mem_cons_of_mem x hp))
      show (splitCharSep sep [] (x ++ String.mk [sep] ++ jsJoin (String.mk [sep]) (y :: ys)).data).map String.mk = x :: y :: ys
      have hdata : (x ++ String.mk [sep] ++ jsJoin (String.mk [sep]) (y :: ys)).data =
          x.data ++ sep :: (jsJoin (String.mk [sep]) (y :: ys)).data := by
        rw [String.data_append, String.data_append]
        simp
      rw [hdata, splitCharSep_sep_split sep x.data [] _ (hfree x (by simp))]
      simp only [List.map_cons, List.reverse_nil, List.nil_append]
      exact congrArg₂ List.cons rfl hys

theorem filterMap_replicate_none {α β : Type} (f : α → Option β) (a : α)
    (h : f a = none) : ∀ n, (List.replicate n a).filterMap f = [] := by
  intro n
  induction n with
  | zero => rfl
  | succ n ih => simp [List.replicate_succ, List.filterMap_cons, h, ih]

theorem filterMap_replicate_some {α β : Type} (f : α → Option β) (a : α) (b : β)
    (h : f a = some b) : ∀ n, (List.replicate n a).filterMap f = List.replicate n b := by
  intro n
  induction n with
  | zero => rfl
  | succ n ih => simp [List.replicate_succ, List.filterMap_cons, h, ih]

theorem filterMap_singleton_some {α β : Type} (f : α → Option β) (a : α) (b : β)
    (h : f a = some b) : [a].filterMap f = [b] := by
  simp [List.filterMap_cons, h]

theorem all_replicate_of {α : Type} (f : α → Bool) (a : α) (h : f a = true) :
    ∀ n, (List.replicate n a).all f = true := by
  intro n
  induction n with
  | zero => rfl
  | succ n ih => simp [List.replicate_succ, List.all_cons, h, ih]

theorem inclSearch_replicate_false (p : Char) (ps : List Char) (a : Char)
    (h : (p == a) = false) :
    ∀ n, inclSearch (p :: ps) (List.replicate n a) = false := by
  intro n
  induction n with
  | zero => rfl
  | succ n ih =>
    simp only [List.replicate_succ, inclSearch, prefB, h, Bool.false_and, Bool.false_or]
    exact ih

theorem dropWhile_replicate_false {α : Type} (f : α → Bool) (a : α)
    (h : f a = false) (n : Nat) :
    (List.replicate n a).dropWhile f = List.replicate n a := by
  cases n with
  | zero => rfl
  | succ n => simp [List.replicate_succ, List.dropWhile_cons, h]

/-! ## Concrete optimizer inputs for claim C3 -/

/-- A 150-character line that matches every substring probe of the
essential-line filter early but fails all its length bounds, so it is
dropped; used as bulk filler. -/
def c3Junk : String := "$ stars rating DPI bought " ++ String.mk (List.replicate 124 'z')

/-- The lines of the large input: 132 junk lines, then 72 short lines that
the filter keeps. -/
def c3Pieces : List String :=
  List.replicate 132 c3Junk ++ ["$1 a."] ++ List.replicate 70 "$2 xxxx" ++
    ["$3 b. $4 c. $5 d. $6 e"]

/-- A 20520-character input (which therefore takes the large-content path). -/
def c3Long : String := jsJoin "\n" c3Pieces

/-- The lines surviving the essential-line filter on `c3Long`. -/
def c3EssList : List String :=
  ["$1 a."] ++ List.replicate 70 "$2 xxxx" ++ ["$3 b. $4 c. $5 d. $6 e"]

/-- The output of the first optimizer pass on `c3Long` (588 characters). -/
def c3Opt : String := jsJoin "\n" c3EssList

/-- A 32020-character single-line input. -/
def c3Wide : String := String.mk (List.replicate 32020 'x')

theorem c3Junk_length : c3Junk.length = 150 := by decide

theorem c3_essential : c3Pieces.filterMap essentialKeep = c3EssList := by
  unfold c3Pieces c3EssList
  rw [List.filterMap_append, List.filterMap_append, List.filterMap_append]
  rw [filterMap_replicate_none essentialKeep c3Junk (by decide) 132]
  rw [filterMap_replicate_some essentialKeep "$2 xxxx" "$2 xxxx" (by decide) 70]
  rw [filterMap_singleton_some essentialKeep "$1 a." "$1 a." (by decide)]
  rw [filterMap_singleton_some essentialKeep "$3 b. $4 c. $5 d. $6 e"
    "$3 b. $4 c. $5 d. $6 e" (by decide)]
  simp

theorem c3Pieces_ne_nil : c3Pieces ≠ [] := by
  unfold c3Pieces
  simp

theorem c3Pieces_sepfree : ∀ p ∈ c3Pieces, SepFree '\n' p := by
  intro p hp
  unfold c3Pieces at hp
  simp only [List.mem_append, List.mem_replicate, List.mem_singleton] at hp
  rcases hp with ((h | h) | h) | h
  · rw [h.2]; unfold SepFree; decide
  · rw [h]; unfold SepFree; decide
  · rw [h.2]; unfold SepFree; decide
  · rw [h]; unfold SepFree; decide

theorem c3Long_split : jsSplitChar c3Long '\n' = c3Pieces := by
  have h := jsSplitChar_join '\n' c3Pieces c3Pieces_ne_nil c3Pieces_sepfree
  exact h

theorem c3Long_length : c3Long.length = 20520 := by
  rw [c3Long, jsJoin_length "\n" c3Pieces c3Pieces_ne_nil]
  decide

theorem optimizePrompt_large (prompt : String) (maxTokens : Nat)
    (hgt : ¬ prompt.length ≤ maxTokens) (hbig : prompt.length > 20000) :
    optimizePrompt prompt maxTokens = optimizeLargeContent prompt maxTokens := by
  rw [optimizePrompt, if_neg hgt, if_pos hbig]

theorem optimizeLargeContent_essential (content : String) (maxTokens : Nat)
    (ess : List String)
    (hsplit : (jsSplitChar content '\n').filterMap essentialKeep = ess)
    (hpos : 0 < ess.length)
    (hfit : (jsJoin "\n" ess).length ≤ maxTokens * 4) :
    optimizeLargeContent content maxTokens = jsJoin "\n" ess := by
  simp only [optimizeLargeContent]
  rw [hsplit, if_pos hpos, if_pos hfit]

theorem optimizeLargeContent_fallback (content : String) (maxTokens : Nat)
    (hsplit : (jsSplitChar content '\n').filterMap essentialKeep = []) :
    optimizeLargeContent content maxTokens =
      jsTake content (maxTokens * 4 / 2) ++ "\n\n... (content truncated) ...\n\n" ++
        jsDropChars content (content.length - maxTokens * 4 / 2) := by
  simp only [optimizeLargeContent]
  rw [hsplit]
  simp

theorem opt_c3Long : optimizePrompt c3Long 500 = c3Opt := by
  rw [optimizePrompt_large c3Long 500
    (by rw [c3Long_length]; norm_num) (by rw [c3Long_length]; norm_num)]
  have hsplit : (jsSplitChar c3Long '\n').filterMap essentialKeep = c3EssList := by
    rw [c3Long_split, c3_essential]
  rw [optimizeLargeContent_essential c3Long 500 c3EssList hsplit
    (by decide) (by decide)]
  rfl

theorem c3Wide_data : c3Wide.data = List.replicate 32020 'x' := rfl

theorem c3Wide_length : c3Wide.length = 32020 := by
  show (List.replicate 32020 'x').length = 32020
  rw [List.length_replicate]

theorem c3Wide_trim : jsTrim c3Wide = c3Wide := by
  unfold jsTrim
  rw [c3Wide_data]
  rw [dropWhile_replicate_false isJsSpace 'x' (by decide) 32020]
  rw [List.reverse_replicate]
  rw [dropWhile_replicate_false isJsSpace 'x' (by decide) 32020]
  rw [List.reverse_replicate]
  rfl

theorem c3Wide_filter : essentialLineFilter c3Wide = false := by
  have hd : strIncludes c3Wide "$" = false :=
    inclSearch_replicate_false '$' [] 'x' (by decide) 32020
  have hs : strIncludes c3Wide "stars" = false :=
    inclSearch_replicate_false 's' ['t', 'a', 'r', 's'] 'x' (by decide) 32020
  have hr : strIncludes c3Wide "rating" = false :=
    inclSearch_replicate_false 'r' ['a', 't', 'i', 'n', 'g'] 'x' (by decide) 32020
  have hD : strIncludes c3Wide "DPI" = false :=
    inclSearch_replicate_false 'D' ['P', 'I'] 'x' (by decide) 32020
  have hb : strIncludes c3Wide "battery" = false :=
    inclSearch_replicate_false 'b' ['a', 't', 't', 'e', 'r', 'y'] 'x' (by decide) 32020
  have hre : strIncludes c3Wide "rechargeable" = false :=
    inclSearch_replicate_false 'r' ['e', 'c', 'h', 'a', 'r', 'g', 'e', 'a', 'b', 'l', 'e'] 'x'
      (by decide) 32020
  have hbo : strIncludes c3Wide "bought" = false :=
    inclSearch_replicate_false 'b' ['o', 'u', 'g', 'h', 't'] 'x' (by decide) 32020
  have hc : strIncludes c3Wide "customers" = false :=
    inclSearch_replicate_false 'c' ['u', 's', 't', 'o', 'm', 'e', 'r', 's'] 'x'
      (by decide) 32020
  have hlt : decide (c3Wide.length < 100) = false := by
    rw [c3Wide_length]; decide
  unfold essentialLineFilter
  rw [hd, hs, hr, hD, hb, hre, hbo, hc, hlt]
  simp

theorem c3Wide_keep : essentialKeep c3Wide = none := by
  simp only [essentialKeep]
  rw [c3Wide_trim, c3Wide_filter]
  simp

theorem c3Wide_split : jsSplitChar c3Wide '\n' = [c3Wide] := by
  unfold jsSplitChar
  rw [c3Wide_data]
  rw [splitCharSep_no_sep '\n' (List.replicate 32020 'x') []
    (all_replicate_of _ 'x' (by decide) 32020)]
  rfl

/-- The ultra-aggressive fallback output on `c3Wide` (32031 characters, longer
than the 32020-character input). -/
def c3WideOut : String :=
  String.mk (List.replicate 16000 'x') ++ "\n\n... (content truncated) ...\n\n" ++
    String.mk (List.replicate 16000 'x')

theorem opt_c3Wide : optimizePrompt c3Wide 8000 = c3WideOut := by
  rw [optimizePrompt_large c3Wide 8000
    (by rw [c3Wide_length]; norm_num) (by rw [c3Wide_length]; norm_num)]
  have hsplit : (jsSplitChar c3Wide '\n').filterMap essentialKeep = [] := by
    rw [c3Wide_split]
    rw [List.filterMap_cons_none c3Wide_keep]
    rfl
  rw [optimizeLargeContent_fallback c3Wide 8000 hsplit]
  rw [c3Wide_length]
  show jsTake c3Wide 16000 ++ "\n\n... (content truncated) ...\n\n" ++
    jsDropChars c3Wide 16020 = c3WideOut
  unfold jsTake jsDropChars
  rw [c3Wide_data]
  rw [List.take_replicate, List.drop_replicate]
  rw [show min 16000 32020 = 16000 from by norm_num]
  rfl

theorem c3WideOut_length : c3WideOut.length = 32031 := by
  have ha : (String.mk (List.replicate 16000 'x')).length = 16000 := by
    show (List.replicate 16000 'x').length = 16000
    rw [List.length_replicate]
  have hm : ("\n\n... (content truncated) ...\n\n" : String).length = 31 := by decide
  rw [show c3WideOut =
    String.mk (List.replicate 16000 'x') ++ "\n\n... (content truncated) ...\n\n" ++
      String.mk (List.replicate 16000 'x') from rfl]
  rw [String.length_append, String.length_append, ha, hm]

theorem c3Wide_estimate : estimateTokenCount c3Wide = 8005 := by
  rw [estimateTokenCount, c3Wide_length]

theorem c3WideOut_estimate : estimateTokenCount c3WideOut = 8008 := by
  rw [estimateTokenCount, c3WideOut_length]

/-- Claim C3 counterexample: `optimizePrompt` is NOT idempotent — on the
20520-character input `c3Long` with limit 500 a second pass changes the
output again — and for the 32020-character input `c3Wide` with limit 8000
(which exceeds the limit both as a character count and as an estimated token
count) the output's estimated token count is strictly LARGER than the
input's, because the fallback splice emits `maxChars + 31` characters. -/
theorem optimizePrompt_counterexample :
    optimizePrompt (optimizePrompt c3Long 500) 500 ≠ optimizePrompt c3Long 500 ∧
    8000 < c3Wide.length ∧ 8000 < estimateTokenCount c3Wide ∧
    estimateTokenCount c3Wide < estimateTokenCount (optimizePrompt c3Wide 8000) := by
  refine ⟨?_, ?_, ?_, ?_⟩
  · rw [opt_c3Long]
    decide
  · rw [c3Wide_length]
    norm_num
  · rw [c3Wide_estimate]
    norm_num
  · rw [opt_c3Wide, c3Wide_estimate, c3WideOut_estimate]
    norm_num

/-- Claim C3 (amended): `optimizePrompt` is not idempotent in general, and an
over-limit input can come back with a larger token estimate (see the
counterexample); what does hold is the final conjunct of the claim: an input
that already fits — `prompt.length ≤ maxTokens`, the fits-check the source
performs — is returned unchanged. -/
theorem optimizePrompt_fits (prompt : String) (maxTokens : Nat)
    (h : prompt.length ≤ maxTokens) : optimizePrompt prompt maxTokens = prompt := by
  rw [optimizePrompt, if_pos h]

/-- Witness for `optimizePrompt_fits` at a concrete fitting input. -/
theorem optimizePrompt_fits_witness : optimizePrompt "abc" 10 = "abc" :=
  optimizePrompt_fits "abc" 10 (by decide)

/-! ## Rate-limit utilities (`rate-limiter.ts`)

The extractor parses provider response headers into a `RateLimitInfo` record;
header parsing itself is I/O-shaped, so errors here carry the already-extracted
`Option RateLimitInfo` (null when the error has no headers).  The `resetTime`
header is a timestamp string consumed via `new Date(...)`; it is modelled as
`resetTimeMs : Option Int` (epoch milliseconds), `none` standing for a
missing/unparseable string, whose `NaN` comparisons in JS are all false. -/

/-- The normalized rate-limit descriptor (`RateLimitInfo` in the source). -/
structure RateLimitInfo where
  retryAfter : Nat
  resetTimeMs : Option Int
  remainingTokens : Int
  limitTokens : Int
  outputTokensRemaining : Int
  outputTokensLimit : Int
  requestsRemaining : Int
  requestsLimit : Int
  totalTokensRemaining : Int
  totalTokensLimit : Int
deriving DecidableEq

/-- `shouldRetry(rateLimitInfo, maxRetries)`: false without a descriptor;
false when retries are exhausted; false when no tokens remain and the reset
is more than 5 minutes away; true otherwise.  `now` is the current wall
clock (`new Date()`). -/
def shouldRetry (rateLimitInfo : Option RateLimitInfo) (maxRetries : Int)
    (now : Int) : Bool :=
  match rateLimitInfo with
  | none => false
  | some ri =>
    if maxRetries ≤ 0 then false
    else if decide (ri.remainingTokens = 0) &&
        (match ri.resetTimeMs with
         | some reset => decide (reset - now > 5 * 60 * 1000)
         | none => false) then false
    else true

/-- The structured content of `getRateLimitMessage`: which sentence template
is used and the data interpolated into it.  The locale-dependent string
rendering (`toLocaleString`, `toLocaleTimeString`) is abstracted away. -/
inductive RateLimitMsg where
  | generic
  | exhausted (limitTokens : Int) (minutesUntilReset : Option Int)
  | throttled (remainingTokens : Int) (retryAfter : Nat)
deriving DecidableEq

/-- `getRateLimitMessage(rateLimitInfo)`: the generic message without a
descriptor; the used-all-tokens message (with `Math.ceil` minutes until
reset) when `remainingTokens === 0`; the tokens-remaining message otherwise. -/
def getRateLimitMessage (rateLimitInfo : Option RateLimitInfo) (now : Int) :
    RateLimitMsg :=
  match rateLimitInfo with
  | none => .generic
  | some ri =>
    if ri.remainingTokens = 0 then
      .exhausted ri.limitTokens
        (ri.resetTimeMs.map fun reset => ⌈((reset - now : Int) : ℚ) / (1000 * 60)⌉)
    else .throttled ri.remainingTokens ri.retryAfter

/-- Characterization of `shouldRetry` with the descriptor present: false iff
retries are exhausted or (no tokens remain and the reset is more than 5
minutes away). -/
theorem shouldRetry_eq (ri : RateLimitInfo) (maxRetries now : Int) :
    shouldRetry (some ri) maxRetries now =
      if maxRetries ≤ 0 then false
      else if ri.remainingTokens = 0 ∧
          (∃ reset, ri.resetTimeMs = some reset ∧ reset - now > 5 * 60 * 1000)
        then false
      else true := by
  rcases hres : ri.resetTimeMs with _ | reset
  · by_cases hr : maxRetries ≤ 0 <;> simp [shouldRetry, hres, hr]
  · by_cases hr : maxRetries ≤ 0
    · simp [shouldRetry, hres, hr]
    · by_cases h0 : ri.remainingTokens = 0
      · by_cases hfar : reset - now > 5 * 60 * 1000
        · simp [shouldRetry, hres, hr, h0, hfar]
        · simp [shouldRetry, hres, hr, h0, hfar]
      · simp [shouldRetry, hres, hr, h0]

/-- Claim C6: `shouldRetry` returns false when retries are exhausted
regardless of the descriptor; false when the descriptor has zero remaining
tokens and a reset more than 5 minutes away; and true in every other case
where a descriptor is present. -/
theorem shouldRetry_spec :
    (∀ (d : RateLimitInfo) (now : Int), shouldRetry (some d) 0 now = false) ∧
    (∀ (d : RateLimitInfo) (now r reset : Int), d.remainingTokens = 0 →
      d.resetTimeMs = some reset → reset - now > 5 * 60 * 1000 →
      shouldRetry (some d) r now = false) ∧
    (∀ (d : RateLimitInfo) (now r : Int), 0 < r →
      (d.remainingTokens ≠ 0 ∨
        (∀ reset : Int, d.resetTimeMs = some reset → reset - now ≤ 5 * 60 * 1000)) →
      shouldRetry (some d) r now = true) := by
  refine ⟨?_, ?_, ?_⟩
  · intro d now
    rw [shouldRetry_eq]
    simp
  · intro d now r reset h0 hreset hfar
    rw [shouldRetry_eq]
    by_cases hr : r ≤ 0
    · rw [if_pos hr]
    · rw [if_neg hr, if_pos ⟨h0, reset, hreset, hfar⟩]
  · intro d now r hr hcase
    have hr2 : ¬ r ≤ 0 := by omega
    rw [shouldRetry_eq, if_neg hr2, if_neg ?_]
    rintro ⟨h0, reset, hreset, hfar⟩
    rcases hcase with hne | hclose
    · exact hne h0
    · exact absurd hfar (not_lt.2 (hclose reset hreset))
/-- A concrete descriptor for the `shouldRetry` witness: zero tokens
remaining and a reset 6 minutes past the epoch. -/
def c6Info : RateLimitInfo :=
  { retryAfter := 60, resetTimeMs := some 360000, remainingTokens := 0,
    limitTokens := 30000, outputTokensRemaining := 0, outputTokensLimit := 8000,
    requestsRemaining := 0, requestsLimit := 50, totalTokensRemaining := 0,
    totalTokensLimit := 38000 }

/-- Witness for `shouldRetry_spec`: with the clock at 0, `c6Info` (reset more
than 5 minutes away, zero tokens left) is not retried even with retries
left. -/
theorem shouldRetry_spec_witness : shouldRetry (some c6Info) 3 0 = false :=
  shouldRetry_spec.2.1 c6Info 0 3 360000 rfl rfl (by norm_num)

/-! ## Agent-node executor retry loop (`agent-executor.ts`)

`executeAgentNode` runs a `for (attempt = 0; attempt <= maxRetries; attempt++)`
loop.  Each iteration waits on the provider token bucket (timeout 30 s),
then calls `executeAgentNodeInternal`; on a thrown error it classifies it as
rate-limiting iff the message contains `"rate limit"` or `"429"`
(case-sensitive), retries with delay
`min(retryAfter * 1000, 1000 * 2 ^ attempt)` or, on the last attempt, throws
the formatted rate-limit message; any other error is re-thrown immediately.

The model makes the per-attempt environment explicit:
`tokenOk i` is whether the bucket wait succeeded on attempt `i`;
`attemptOutcome i` is what `executeAgentNodeInternal` does on attempt `i`
(its value, or the thrown error's message together with
`extractRateLimitInfo` of that error); `failTime i` is the wall clock at
which attempt `i`'s failure is handled.  The function returns the list of
backoff delays it sleeps, in order, together with the final outcome. -/

/-- Outcome of one `executeAgentNodeInternal` call: a result value, or a
thrown error carrying its message and its extracted rate-limit descriptor. -/
inductive AttemptOutcome (α : Type) where
  | ok (value : α)
  | err (message : String) (info : Option RateLimitInfo)

/-- Final outcome of the retry loop: a returned value, the formatted
rate-limit message thrown after the final permitted attempt, or a
non-rate-limit error propagated verbatim. -/
inductive AgentResult (α : Type) where
  | success (value : α)
  | rateLimitFailure (msg : RateLimitMsg)
  | propagated (message : String)
deriving DecidableEq

/-- The error thrown when the token-bucket wait times out. -/
def tokenTimeoutMessage : String := "Rate limit token timeout. Please try again later."

/-- The loop's rate-limit classification:
`message.includes('rate limit') || message.includes('429')`. -/
def isRateLimitErrorMessage (msg : String) : Bool :=
  strIncludes msg "rate limit" || strIncludes msg "429"

/-- `rateLimitInfo?.retryAfter || 60`: 60 when the descriptor is absent, and
also when its `retryAfter` is 0 (JS falsy). -/
def retryAfterOf (info : Option RateLimitInfo) : Nat :=
  match info with
  | some ri => if ri.retryAfter = 0 then 60 else ri.retryAfter
  | none => 60

/-- `Math.min(retryAfter * 1000, 1000 * Math.pow(2, attempt))`. -/
def backoffDelay (info : Option RateLimitInfo) (attempt : Nat) : Nat :=
  min (retryAfterOf info * 1000) (1000 * 2 ^ attempt)

/-- The loop of `executeAgentNode` from iteration `attempt` on, with
`remaining` further iterations allowed after this one (`remaining =
maxRetries - attempt`). -/
def executeAgentNodeFrom {α : Type} (tokenOk : Nat → Bool)
    (attemptOutcome : Nat → AttemptOutcome α) (failTime : Nat → Int)
    (attempt : Nat) (remaining : Nat) : List Nat × AgentResult α :=
  let outcome := if tokenOk attempt then attemptOutcome attempt
    else .err tokenTimeoutMessage none
  match outcome with
  | .ok v => ([], .success v)
  | .err msg info =>
    if isRateLimitErrorMessage msg then
      match remaining with
      | 0 => ([], .rateLimitFailure (getRateLimitMessage info (failTime attempt)))
      | r + 1 =>
        let rest := executeAgentNodeFrom tokenOk attemptOutcome failTime (attempt + 1) r
        (backoffDelay info attempt :: rest.1, rest.2)
    else ([], .propagated msg)

/-- `executeAgentNode(node, state, apiKeys, maxRetries)`: the loop started at
attempt 0. -/
def executeAgentNode {α : Type} (tokenOk : Nat → Bool)
    (attemptOutcome : Nat → AttemptOutcome α) (failTime : Nat → Int)
    (maxRetries : Nat) : List Nat × AgentResult α :=
  executeAgentNodeFrom tokenOk attemptOutcome failTime 0 maxRetries

/-! Error rewriting in `executeAgentNodeInternal`'s own catch block: the four
branches, in source order.  Only its classification is modelled (the
rate-limit branch re-renders via `getRateLimitMessage`, see
`getRateLimitMessage` above). -/

/-- Which branch of `executeAgentNodeInternal`'s catch block fires. -/
inductive InternalErrorKind where
  | missingApiKey
  | rateLimited
  | noKeyConfigured
  | generic
deriving DecidableEq

/-- The classification order of `executeAgentNodeInternal`'s catch block. -/
def internalErrorKind (msg : String) : InternalErrorKind :=
  if strIncludes msg "API key" || strIncludes msg "api_key" then .missingApiKey
  else if strIncludes msg "rate limit" || strIncludes msg "429" then .rateLimited
  else if strIncludes msg "No API key available" then .noKeyConfigured
  else .generic

/-- The error thrown by the dispatch when no key matches:
`new Error('No API key available for provider: ' + provider)`. -/
def noApiKeyMessage (provider : String) : String :=
  "No API key available for provider: " ++ provider

/-- The message the internal catch block rewrites an API-key error to. -/
def missingApiKeyMessage : String :=
  "Missing API key. Please add your LLM provider key in Settings."

theorem prefB_append : ∀ (p a b : List Char), prefB p a = true →
    prefB p (a ++ b) = true := by
  intro p
  induction p with
  | nil => intro a b _; rfl
  | cons x ps ih =>
    intro a b h
    cases a with
    | nil => exact absurd h (by simp [prefB])
    | cons y as =>
      simp only [prefB, Bool.and_eq_true] at h
      simp only [List.cons_append, prefB, Bool.and_eq_true]
      exact ⟨h.1, ih as b h.2⟩

theorem inclSearch_nil_pat : ∀ l : List Char, inclSearch [] l = true := by
  intro l
  cases l with
  | nil => rfl
  | cons c hs => simp [inclSearch, prefB]

theorem inclSearch_append : ∀ (a b p : List Char), inclSearch p a = true →
    inclSearch p (a ++ b) = true := by
  intro a
  induction a with
  | nil =>
    intro b p h
    cases p with
    | nil => exact inclSearch_nil_pat b
    | cons x ps => exact absurd h (by simp [inclSearch, prefB])
  | cons c as ih =>
    intro b p h
    simp only [inclSearch, Bool.or_eq_true] at h
    simp only [List.cons_append, inclSearch, Bool.or_eq_true]
    rcases h with h | h
    · exact Or.inl (prefB_append p (c :: as) b h)
    · exact Or.inr (ih b p h)

theorem strIncludes_append (s t pat : String) (h : strIncludes s pat = true) :
    strIncludes (s ++ t) pat = true := by
  unfold strIncludes at h ⊢
  rw [String.data_append]
  exact inclSearch_append s.data t.data pat.data h

theorem eanf_ok {α : Type} (tokenOk : Nat → Bool) (att : Nat → AttemptOutcome α)
    (ft : Nat → Int) (i remaining : Nat) (v : α)
    (htok : tokenOk i = true) (hatt : att i = .ok v) :
    executeAgentNodeFrom tokenOk att ft i remaining = ([], .success v) := by
  rw [executeAgentNodeFrom.eq_def, htok]
  simp only [if_true]
  rw [hatt]

theorem eanf_rl_cont {α : Type} (tokenOk : Nat → Bool) (att : Nat → AttemptOutcome α)
    (ft : Nat → Int) (i r : Nat) (msg : String) (info : Option RateLimitInfo)
    (htok : tokenOk i = true) (hatt : att i = .err msg info)
    (hrl : isRateLimitErrorMessage msg = true) :
    executeAgentNodeFrom tokenOk att ft i (r + 1) =
      (backoffDelay info i :: (executeAgentNodeFrom tokenOk att ft (i + 1) r).1,
       (executeAgentNodeFrom tokenOk att ft (i + 1) r).2) := by
  rw [executeAgentNodeFrom.eq_def, htok]
  simp only [if_true]
  rw [hatt]
  simp only [hrl, if_true]

theorem eanf_rl_last {α : Type} (tokenOk : Nat → Bool) (att : Nat → AttemptOutcome α)
    (ft : Nat → Int) (i : Nat) (msg : String) (info : Option RateLimitInfo)
    (htok : tokenOk i = true) (hatt : att i = .err msg info)
    (hrl : isRateLimitErrorMessage msg = true) :
    executeAgentNodeFrom tokenOk att ft i 0 =
      ([], .rateLimitFailure (getRateLimitMessage info (ft i))) := by
  rw [executeAgentNodeFrom.eq_def, htok]
  simp only [if_true]
  rw [hatt]
  simp only [hrl, if_true]

theorem eanf_prop {α : Type} (tokenOk : Nat → Bool) (att : Nat → AttemptOutcome α)
    (ft : Nat → Int) (i remaining : Nat) (msg : String) (info : Option RateLimitInfo)
    (htok : tokenOk i = true) (hatt : att i = .err msg info)
    (hrl : isRateLimitErrorMessage msg = false) :
    executeAgentNodeFrom tokenOk att ft i remaining = ([], .propagated msg) := by
  rw [executeAgentNodeFrom.eq_def, htok]
  simp only [if_true]
  rw [hatt]
  simp only [hrl, Bool.false_eq_true, if_false]

/-- Claim C1: with the default retry budget 3 (4 total attempts, `remaining =
3 - i` further retries at attempt `i`): a failure classified as rate-limiting
on attempt `i < 3` sleeps exactly
`min(retryAfterSeconds * 1000, 1000 * 2 ^ i)` milliseconds (`retryAfterSeconds`
from the extracted descriptor, defaulting to 60) and continues with attempt
`i + 1`; a rate-limit failure on the final permitted attempt throws the
formatted rate-limit message derived from the descriptor; a success on any
attempt returns that attempt's result immediately with no further waits. -/
theorem executeAgentNode_retry_spec {α : Type} (tokenOk : Nat → Bool)
    (att : Nat → AttemptOutcome α) (ft : Nat → Int) :
    executeAgentNode tokenOk att ft 3 = executeAgentNodeFrom tokenOk att ft 0 3 ∧
    (∀ i, i < 3 → tokenOk i = true → ∀ msg info, att i = .err msg info →
      isRateLimitErrorMessage msg = true →
      executeAgentNodeFrom tokenOk att ft i (3 - i) =
        (min (retryAfterOf info * 1000) (1000 * 2 ^ i) ::
          (executeAgentNodeFrom tokenOk att ft (i + 1) (3 - (i + 1))).1,
         (executeAgentNodeFrom tokenOk att ft (i + 1) (3 - (i + 1))).2)) ∧
    (∀ msg info, tokenOk 3 = true → att 3 = .err msg info →
      isRateLimitErrorMessage msg = true →
      executeAgentNodeFrom tokenOk att ft 3 (3 - 3) =
        ([], .rateLimitFailure (getRateLimitMessage info (ft 3)))) ∧
    (∀ i (v : α), tokenOk i = true → att i = .ok v →
      ∀ remaining, executeAgentNodeFrom tokenOk att ft i remaining = ([], .success v)) := by
  refine ⟨rfl, ?_, ?_, ?_⟩
  · intro i hi htok msg info hatt hrl
    have hk : 3 - i = (3 - (i + 1)) + 1 := by omega
    rw [hk]
    exact eanf_rl_cont tokenOk att ft i (3 - (i + 1)) msg info htok hatt hrl
  · intro msg info htok hatt hrl
    exact eanf_rl_last tokenOk att ft 3 msg info htok hatt hrl
  · intro i v htok hatt remaining
    exact eanf_ok tokenOk att ft i remaining v htok hatt

/-- Concrete environment for the C1 witness: attempt 0 fails with a 429 (the
descriptor suggesting 2 seconds), later attempts succeed. -/
def c1Info : RateLimitInfo :=
  { retryAfter := 2, resetTimeMs := none, remainingTokens := 5,
    limitTokens := 30000, outputTokensRemaining := 0, outputTokensLimit := 8000,
    requestsRemaining := 0, requestsLimit := 50, totalTokensRemaining := 0,
    totalTokensLimit := 38000 }

/-- Token-bucket waits always succeed in the C1 witness environment. -/
def c1TokenOk : Nat → Bool := fun _ => true

/-- Attempt outcomes of the C1 witness environment. -/
def c1Att : Nat → AttemptOutcome Nat := fun i =>
  match i with
  | 0 => .err "429 rate limited by provider" (some c1Info)
  | _ => .ok 42

/-- Failure-handling times of the C1 witness environment. -/
def c1Ft : Nat → Int := fun _ => 0

/-- Witness for `executeAgentNode_retry_spec`: in the concrete environment the
first attempt's rate-limit failure sleeps `min(2000, 1000)` ms and the loop
continues from attempt 1. -/
theorem executeAgentNode_retry_spec_witness :
    executeAgentNodeFrom c1TokenOk c1Att c1Ft 0 (3 - 0) =
      (min (retryAfterOf (some c1Info) * 1000) (1000 * 2 ^ 0) ::
        (executeAgentNodeFrom c1TokenOk c1Att c1Ft (0 + 1) (3 - (0 + 1))).1,
       (executeAgentNodeFrom c1TokenOk c1Att c1Ft (0 + 1) (3 - (0 + 1))).2) :=
  (executeAgentNode_retry_spec c1TokenOk c1Att c1Ft).2.1 0 (by norm_num) rfl
    "429 rate limited by provider" (some c1Info) rfl (by decide)

/-- Claim C4: a failure not classified as rate-limiting is propagated out of
the retry loop immediately — regardless of how many retries remain, and
without the outcome of any later attempt being consulted; in particular the
missing-credentials failure: the dispatch error for an unconfigured provider
is rewritten by the internal catch block's first branch to the missing-API-key
message, and that message is not classified as rate-limiting. -/
theorem executeAgentNode_nonretryable_spec {α : Type} (tokenOk : Nat → Bool)
    (att : Nat → AttemptOutcome α) (ft : Nat → Int) :
    (∀ i remaining msg info, tokenOk i = true → att i = .err msg info →
      isRateLimitErrorMessage msg = false →
      executeAgentNodeFrom tokenOk att ft i remaining = ([], .propagated msg)) ∧
    (∀ provider : String,
      internalErrorKind (noApiKeyMessage provider) = .missingApiKey) ∧
    isRateLimitErrorMessage missingApiKeyMessage = false := by
  refine ⟨?_, ?_, by decide⟩
  · intro i remaining msg info htok hatt hrl
    exact eanf_prop tokenOk att ft i remaining msg info htok hatt hrl
  · intro provider
    have h : strIncludes (noApiKeyMessage provider) "API key" = true :=
      strIncludes_append "No API key available for provider: " provider "API key"
        (by decide)
    unfold internalErrorKind noApiKeyMessage
    unfold noApiKeyMessage at h
    rw [h]
    rfl

/-- Attempt outcomes of the C4 witness environment: every attempt fails with
the rewritten missing-API-key error. -/
def c4Att : Nat → AttemptOutcome Nat := fun _ => .err missingApiKeyMessage none

/-- Witness for `executeAgentNode_nonretryable_spec`: the missing-credentials
failure on attempt 0 is propagated with no waits although 3 retries remain. -/
theorem executeAgentNode_nonretryable_witness :
    executeAgentNodeFrom c1TokenOk c4Att c1Ft 0 3 =
      ([], .propagated missingApiKeyMessage) :=
  (executeAgentNode_nonretryable_spec c1TokenOk c4Att c1Ft).1 0 3
    missingApiKeyMessage none rfl rfl (by decide)

/-! ## MCP resolver (`src/lib/mcp/resolver.ts`) -/

/-- A legacy inline tool-configuration object (its contents are opaque to the
resolver, which only branches on `typeof serverIds[0] === 'object'`). -/
structure MCPConfigObj where
  name : String
deriving DecidableEq

/-- One element of the `serverIds` argument: a bare id string, or a legacy
inline configuration object. -/
inductive MCPRef where
  | id (s : String)
  | config (c : MCPConfigObj)
deriving DecidableEq

/-- A row of the external `mcpServer` store. -/
structure MCPServerRow where
  id : String
  name : String
  url : String
  description : String
  authType : String
  accessToken : String
  tools : Option (List String)
  headers : Option (List (String × String))
deriving DecidableEq

/-- The resolved shape handed to executors. -/
structure ResolvedMCPConfig where
  name : String
  url : String
  description : String
  authType : String
  accessToken : String
  availableTools : List String
  headers : Option (List (String × String))
deriving DecidableEq

/-- The row-to-executor-shape transformation (`availableTools` is
`server.tools || []`). -/
def toResolvedConfig (server : MCPServerRow) : ResolvedMCPConfig :=
  { name := server.name, url := server.url, description := server.description,
    authType := server.authType, accessToken := server.accessToken,
    availableTools := server.tools.getD [], headers := server.headers }

/-- An element of `resolveMCPServers`' result: the legacy branch returns the
input references unchanged, the query branch returns transformed rows. -/
inductive ResolvedTool where
  | legacy (r : MCPRef)
  | fromStore (c : ResolvedMCPConfig)
deriving DecidableEq

/-- `resolveMCPServers(serverIds)`.  `store` is the content of the external
`mcpServer` table (the `WHERE id = ANY($1)` query returns its rows whose id is
listed); `dbOk` is whether the query itself succeeds — on a query error the
catch block logs and returns `[]`.  An empty or null input returns `[]`; a
list whose FIRST element is an object is returned as-is (legacy format);
otherwise the listed ids are looked up and matching rows transformed — ids
with no matching row simply produce no row. -/
def resolveMCPServers (store : List MCPServerRow) (dbOk : Bool)
    (serverIds : List MCPRef) : List ResolvedTool :=
  match serverIds with
  | [] => []
  | first :: rest =>
    match first with
    | .config _ => (first :: rest).map .legacy
    | .id _ =>
      if dbOk then
        (store.filter fun row => decide (MCPRef.id row.id ∈ first :: rest)).map
          fun row => .fromStore (toResolvedConfig row)
      else []

/-- The store row known as `"a"` in the C7 scenario. -/
def aRow : MCPServerRow :=
  { id := "a", name := "A", url := "https://a.example/mcp", description := "",
    authType := "none", accessToken := "", tools := some ["t1"], headers := none }

/-- Claim C7: ids with no matching record are silently dropped — resolving
`["a","missing"]` against a store knowing only `"a"` yields exactly the one
resolved config; appending an id unknown to the store never changes the
result; and resolution never throws: even a failing store query yields the
empty list, not an error. -/
theorem resolveMCPServers_drops_missing :
    resolveMCPServers [aRow] true [.id "a", .id "missing"] =
      [.fromStore (toResolvedConfig aRow)] ∧
    (∀ (store : List MCPServerRow) (x : String) (rest : List MCPRef) (s : String),
      (∀ row ∈ store, row.id ≠ s) →
      resolveMCPServers store true (.id x :: (rest ++ [.id s])) =
        resolveMCPServers store true (.id x :: rest)) ∧
    (∀ (store : List MCPServerRow) (x : String) (rest : List MCPRef),
      resolveMCPServers store false (.id x :: rest) = []) := by
  refine ⟨by decide, ?_, ?_⟩
  · intro store x rest s hmiss
    simp only [resolveMCPServers, if_true]
    congr 1
    apply List.filter_congr
    intro row hrow
    have hne := hmiss row hrow
    simp only [decide_eq_decide, List.mem_cons, List.mem_append, List.mem_singleton,
      List.not_mem_nil, or_false]
    constructor
    · rintro (h | h | h)
      · exact Or.inl h
      · exact Or.inr h
      · exact absurd (MCPRef.id.inj h) hne
    · rintro (h | h)
      · exact Or.inl h
      · exact Or.inr (Or.inl h)
  · intro store x rest
    simp [resolveMCPServers]

/-- Witness for `resolveMCPServers_drops_missing`: appending the unknown id
`"missing"` to `["a"]` leaves the resolution against the one-row store
unchanged. -/
theorem resolveMCPServers_drops_missing_witness :
    resolveMCPServers [aRow] true (.id "a" :: ([] ++ [.id "missing"])) =
      resolveMCPServers [aRow] true (.id "a" :: []) :=
  (resolveMCPServers_drops_missing).2.1 [aRow] "a" [] "missing"
    (by intro row hrow; rw [List.mem_singleton.1 hrow]; decide)

/-- Claim C10: when the first element of the reference list is an inline
object, `resolveMCPServers` returns the whole input list unchanged (modulo
the tagging of the result type), independently of the store and of whether
the store query would succeed — so bare id strings occurring after an inline
object are never resolved. -/
theorem resolveMCPServers_legacy_first :
    (∀ (store : List MCPServerRow) (dbOk : Bool) (c : MCPConfigObj)
      (rest : List MCPRef),
      resolveMCPServers store dbOk (.config c :: rest) =
        (MCPRef.config c :: rest).map .legacy) ∧
    (∀ (store store2 : List MCPServerRow) (dbOk dbOk2 : Bool) (c : MCPConfigObj)
      (rest : List MCPRef),
      resolveMCPServers store dbOk (.config c :: rest) =
        resolveMCPServers store2 dbOk2 (.config c :: rest)) := by
  refine ⟨?_, ?_⟩
  · intro store dbOk c rest
    rfl
  · intro store store2 dbOk dbOk2 c rest
    rfl

/-- Witness for `resolveMCPServers_legacy_first`: an inline object followed by
a bare id is returned as-is, with the trailing id left unresolved even though
the store knows it. -/
theorem resolveMCPServers_legacy_first_witness :
    resolveMCPServers [aRow] true [.config ⟨"inline"⟩, .id "a"] =
      [.legacy (.config ⟨"inline"⟩), .legacy (.id "a")] :=
  (resolveMCPServers_legacy_first).1 [aRow] true ⟨"inline"⟩ [.id "a"]

/-! ## Legacy-config migration (`migrateMCPData` in `src/lib/mcp/resolver.ts`) -/

/-- An element of a legacy tool field: a bare id string
(`typeof tool === 'string'`) or a full tool object (contents opaque to the
migration, which never looks inside). -/
inductive ToolRef where
  | str (s : String)
  | obj (name : String)
deriving DecidableEq

/-- `typeof tool === 'string'`. -/
def ToolRef.isStringRef : ToolRef → Bool
  | .str _ => true
  | .obj _ => false

/-- The value of a legacy field: an array of tool references, or a non-array
scalar (only `mcpServerIds` is ever wrapped when non-array). -/
inductive MCPFieldVal where
  | arr (l : List ToolRef)
  | scalar (v : ToolRef)
deriving DecidableEq

/-- A node configuration as seen by `migrateMCPData`: the three fields the
migration inspects, plus `rest` standing for every other field, copied
verbatim by the `{ ...data }` spread.  (JS truthiness nuance: a falsy scalar
such as an empty-string `mcpServerIds` would be skipped rather than wrapped;
the inputs below never exercise that corner.) -/
structure NodeConfig (ρ : Type) where
  mcpTools : Option MCPFieldVal
  tools : Option MCPFieldVal
  mcpServerIds : Option MCPFieldVal
  rest : ρ
deriving DecidableEq

/-- Step 1 of `migrateMCPData`: move an `mcpTools` array in which SOME
element is a string to `mcpServerIds`, deleting `mcpTools`. -/
def migrateStep1 {ρ : Type} (data : NodeConfig ρ) : NodeConfig ρ :=
  match data.mcpTools with
  | some (.arr l) =>
    if l.any ToolRef.isStringRef then
      { data with mcpServerIds := some (.arr l), mcpTools := none }
    else data
  | _ => data

/-- Step 2 of `migrateMCPData`: move a `tools` array in which EVERY element
is a string to `mcpServerIds`, deleting `tools`. -/
def migrateStep2 {ρ : Type} (data : NodeConfig ρ) : NodeConfig ρ :=
  match data.tools with
  | some (.arr l) =>
    if l.all ToolRef.isStringRef then
      { data with mcpServerIds := some (.arr l), tools := none }
    else data
  | _ => data

/-- Step 3 of `migrateMCPData`: wrap a non-array `mcpServerIds` in an array. -/
def migrateStep3 {ρ : Type} (data : NodeConfig ρ) : NodeConfig ρ :=
  match data.mcpServerIds with
  | some (.scalar v) => { data with mcpServerIds := some (.arr [v]) }
  | _ => data

/-- `migrateMCPData(data)`: the three migration blocks of the source, in
order, over the spread copy of `data`. -/
def migrateMCPData {ρ : Type} (data : NodeConfig ρ) : NodeConfig ρ :=
  migrateStep3 (migrateStep2 (migrateStep1 data))

theorem migrateStep1_tools {ρ : Type} (d : NodeConfig ρ) :
    (migrateStep1 d).tools = d.tools := by
  unfold migrateStep1
  cases hmt : d.mcpTools with
  | none => rfl
  | some fv =>
    cases fv with
    | scalar v => rfl
    | arr l =>
      dsimp only
      cases hb : l.any ToolRef.isStringRef with
      | false => rw [if_neg (by simp)]
      | true => rw [if_pos rfl]

theorem migrateStep1_none {ρ : Type} (d : NodeConfig ρ)
    (h : d.mcpTools = none) : migrateStep1 d = d := by
  unfold migrateStep1
  rw [h]

theorem migrateStep1_scalar {ρ : Type} (d : NodeConfig ρ) (v : ToolRef)
    (h : d.mcpTools = some (.scalar v)) : migrateStep1 d = d := by
  unfold migrateStep1
  rw [h]

theorem migrateStep1_nostr {ρ : Type} (d : NodeConfig ρ) (l : List ToolRef)
    (h : d.mcpTools = some (.arr l)) (hany : l.any ToolRef.isStringRef = false) :
    migrateStep1 d = d := by
  unfold migrateStep1
  rw [h]
  dsimp only
  rw [if_neg (by simp [hany])]

theorem migrateStep2_move {ρ : Type} (d : NodeConfig ρ) (l : List ToolRef)
    (h : d.tools = some (.arr l)) (hall : l.all ToolRef.isStringRef = true) :
    migrateStep2 d = { d with mcpServerIds := some (.arr l), tools := none } := by
  unfold migrateStep2
  rw [h]
  dsimp only
  rw [if_pos hall]

theorem migrateStep2_skip {ρ : Type} (d : NodeConfig ρ) (l : List ToolRef)
    (h : d.tools = some (.arr l)) (hnall : l.all ToolRef.isStringRef = false) :
    migrateStep2 d = d := by
  unfold migrateStep2
  rw [h]
  dsimp only
  rw [if_neg (by simp [hnall])]

theorem migrateStep3_none {ρ : Type} (d : NodeConfig ρ)
    (h : d.mcpServerIds = none) : migrateStep3 d = d := by
  unfold migrateStep3
  rw [h]

theorem migrateStep3_arr {ρ : Type} (d : NodeConfig ρ) (l : List ToolRef)
    (h : d.mcpServerIds = some (.arr l)) : migrateStep3 d = d := by
  unfold migrateStep3
  rw [h]

theorem migrateStep3_tools {ρ : Type} (d : NodeConfig ρ) :
    (migrateStep3 d).tools = d.tools := by
  unfold migrateStep3
  cases hms : d.mcpServerIds with
  | none => rfl
  | some fv => cases fv with
    | arr l => rfl
    | scalar v => rfl

/-- The C9 counterexample configuration: `tools` holds full objects, but a
legacy `mcpTools` field holds a bare id. -/
def c9Config : NodeConfig Unit :=
  { mcpTools := some (.arr [.str "m"]), tools := some (.arr [.obj "fullTool"]),
    mcpServerIds := none, rest := () }

/-- Claim C9 counterexample: `c9Config`'s `tools` field already contains full
tool objects, yet migration does NOT return the configuration unchanged — its
`mcpTools` field is migrated into `mcpServerIds`. -/
theorem migrateMCPData_counterexample :
    c9Config.tools = some (.arr [.obj "fullTool"]) ∧
    migrateMCPData c9Config ≠ c9Config := by
  refine ⟨rfl, ?_⟩
  decide

/-- Claim C9 (amended): (1) a `tools` field whose elements are all bare id
strings is always rewritten into `mcpServerIds` with `tools` removed; (2) a
`tools` field containing a full object is left in place; and (3) such a
configuration is returned entirely unchanged PROVIDED no other legacy field
triggers migration — i.e. `mcpTools` is absent, non-array, or holds no
string, and `mcpServerIds` is absent or already an array. -/
theorem migrateMCPData_spec {ρ : Type} :
    (∀ (data : NodeConfig ρ) (l : List ToolRef), data.tools = some (.arr l) →
      l.all ToolRef.isStringRef = true →
      (migrateMCPData data).mcpServerIds = some (.arr l) ∧
      (migrateMCPData data).tools = none) ∧
    (∀ (data : NodeConfig ρ) (l : List ToolRef), data.tools = some (.arr l) →
      l.all ToolRef.isStringRef = false →
      (migrateMCPData data).tools = data.tools) ∧
    (∀ (data : NodeConfig ρ) (l : List ToolRef), data.tools = some (.arr l) →
      l.all ToolRef.isStringRef = false →
      (data.mcpTools = none ∨ (∃ v, data.mcpTools = some (.scalar v)) ∨
        (∃ l2, data.mcpTools = some (.arr l2) ∧ l2.any ToolRef.isStringRef = false)) →
      (data.mcpServerIds = none ∨ ∃ l3, data.mcpServerIds = some (.arr l3)) →
      migrateMCPData data = data) := by
  refine ⟨?_, ?_, ?_⟩
  · intro data l htools hall
    have h1 : (migrateStep1 data).tools = some (.arr l) := by
      rw [migrateStep1_tools]
      exact htools
    have h2 := migrateStep2_move (migrateStep1 data) l h1 hall
    unfold migrateMCPData
    rw [h2, migrateStep3_arr _ l rfl]
    exact ⟨rfl, rfl⟩
  · intro data l htools hnall
    have h1 : (migrateStep1 data).tools = some (.arr l) := by
      rw [migrateStep1_tools]
      exact htools
    have h2 := migrateStep2_skip (migrateStep1 data) l h1 hnall
    unfold migrateMCPData
    rw [h2, migrateStep3_tools, migrateStep1_tools]
  · intro data l htools hnall hmt hms
    have h1 : migrateStep1 data = data := by
      rcases hmt with h | ⟨v, h⟩ | ⟨l2, h, hany⟩
      · exact migrateStep1_none data h
      · exact migrateStep1_scalar data v h
      · exact migrateStep1_nostr data l2 h hany
    have h2 : migrateStep2 data = data := migrateStep2_skip data l htools hnall
    have h3 : migrateStep3 data = data := by
      rcases hms with h | ⟨l3, h⟩
      · exact migrateStep3_none data h
      · exact migrateStep3_arr data l3 h
    unfold migrateMCPData
    rw [h1, h2, h3]

/-- The concrete legacy config `{ tools: ["id1","id2"] }` of the C9 witness. -/
def c9Legacy : NodeConfig Unit :=
  { mcpTools := none, tools := some (.arr [.str "id1", .str "id2"]),
    mcpServerIds := none, rest := () }

/-- Witness for `migrateMCPData_spec`: `c9Legacy` migrates to
`mcpServerIds: ["id1","id2"]` with the `tools` field gone. -/
theorem migrateMCPData_spec_witness :
    (migrateMCPData c9Legacy).mcpServerIds = some (.arr [.str "id1", .str "id2"]) ∧
    (migrateMCPData c9Legacy).tools = none :=
  migrateMCPData_spec.1 c9Legacy [.str "id1", .str "id2"] rfl (by decide)

/-! ## Approvals (`src/lib/database/approvals.ts`)

The approvals table is modelled as a list of rows; SQL statements become list
operations.  `updateApprovalStatus` issues
`UPDATE approvals SET status, respondedBy, respondedAt WHERE approvalId = $4
RETURNING *` — note: no condition on the current status. -/

/-- The status column: `'pending' | 'approved' | 'rejected'`. -/
inductive ApprovalStatus where
  | pending
  | approved
  | rejected
deriving DecidableEq

/-- The statuses `updateApprovalStatus` accepts (`'approved' | 'rejected'`). -/
inductive ApprovalDecision where
  | approved
  | rejected
deriving DecidableEq

/-- Embed a decision into the status column. -/
def ApprovalDecision.toStatus : ApprovalDecision → ApprovalStatus
  | .approved => .approved
  | .rejected => .rejected

/-- A row of the approvals table (the columns this development needs). -/
structure Approval where
  approvalId : String
  workflowId : String
  message : String
  status : ApprovalStatus
  respondedBy : Option String
  createdAt : Int
  respondedAt : Option Int
deriving DecidableEq

/-- `updateApprovalStatus(approvalId, status, respondedBy)`: set status,
responder and response time on every row matching the id — unconditionally —
and return the updated table together with `result.rows[0] || null`. -/
def updateApprovalStatus (table : List Approval) (approvalId : String)
    (status : ApprovalDecision) (respondedBy : Option String) (now : Int) :
    List Approval × Option Approval :=
  let updated := table.map fun a =>
    if a.approvalId = approvalId then
      { a with
        status := status.toStatus,
        respondedBy := respondedBy,
        respondedAt := some now }
    else a
  (updated, (updated.filter fun a => decide (a.approvalId = approvalId)).head?)

/-- `getApprovalById(approvalId)`: `SELECT * ... WHERE approvalId = $1`,
`rows[0] || null`; it performs no write. -/
def getApprovalById (table : List Approval) (approvalId : String) :
    Option Approval :=
  (table.filter fun a => decide (a.approvalId = approvalId)).head?

/-- `watchApprovalStatus(approvalId)`: the status-read operation of the
approval gate (`not_found` is modelled as `none`); it performs no write. -/
def watchApprovalStatus (table : List Approval) (approvalId : String) :
    Option (ApprovalStatus × Approval) :=
  match getApprovalById table approvalId with
  | none => none
  | some a => some (a.status, a)

/-- An already-approved record, used by the C8 counterexample. -/
def approvedRec : Approval :=
  { approvalId := "ap1", workflowId := "wf1", message := "deploy?",
    status := .approved, respondedBy := some "alice", createdAt := 0,
    respondedAt := some 5 }

/-- Claim C8 counterexample: `approvedRec` is already in the terminal state
`approved`, yet a second `updateApprovalStatus` call flips it to `rejected` —
the interface does not prevent further status changes after a terminal state
is reached. -/
theorem updateApprovalStatus_counterexample :
    approvedRec.status = .approved ∧
    (updateApprovalStatus [approvedRec] "ap1" .rejected (some "bob") 10).1 =
      [{ approvedRec with
          status := .rejected,
          respondedBy := some "bob",
          respondedAt := some 10 }] := by
  refine ⟨rfl, ?_⟩
  decide

/-- Claim C8 (amended): `updateApprovalStatus` overwrites the status of every
row matching the given id with the given terminal value regardless of the
row's current status — so the pending-to-terminal discipline is only upheld
if the external actor calls it once; the interface itself does not enforce
it.  Rows with a different id are left unchanged, and the read operations
(`getApprovalById`, `watchApprovalStatus`) never modify the table. -/
theorem updateApprovalStatus_overwrites (table : List Approval) (idv : String)
    (st : ApprovalDecision) (rb : Option String) (now : Int) :
    (∀ a ∈ table, a.approvalId = idv →
      { a with
        status := st.toStatus,
        respondedBy := rb,
        respondedAt := some now } ∈ (updateApprovalStatus table idv st rb now).1) ∧
    (∀ a ∈ table, a.approvalId ≠ idv →
      a ∈ (updateApprovalStatus table idv st rb now).1) := by
  constructor
  · intro a ha hid
    exact List.mem_map.2 ⟨a, ha, by simp [hid]⟩
  · intro a ha hid
    exact List.mem_map.2 ⟨a, ha, by simp [hid]⟩

/-- Witness for `updateApprovalStatus_overwrites`: updating the
already-approved `approvedRec` to rejected stores the rejected row. -/
theorem updateApprovalStatus_overwrites_witness :
    ({ approvedRec with
      status := ApprovalDecision.rejected.toStatus,
      respondedBy := some "bob",
      respondedAt := some 10 } : Approval) ∈
      (updateApprovalStatus [approvedRec] "ap1" .rejected (some "bob") 10).1 :=
  (updateApprovalStatus_overwrites [approvedRec] "ap1" .rejected (some "bob") 10).1
    approvedRec (List.mem_singleton.2 rfl) rfl
